import Mathlib

/-!
Verification of the query-construction and response-normalization logic of a
single-endpoint Jira search proxy (source: proxy_server.py).  Strings are
modelled as lists of characters; the Python set of search components is
modelled as an insertion-ordered duplicate-free list together with an
arbitrary iteration order (a permutation parameter), since Python iterates a
set in a hash-dependent but per-process-fixed order.
-/

namespace JiraProxy

/-- Character strings, modelled as lists of characters. -/
abbrev Str := List Char

/-- Whitespace recognised by the strip operation (ASCII model of
Python str.strip): space, tab, newline, carriage return, vertical tab,
form feed. -/
def isSpaceCh (c : Char) : Bool :=
  c == ' ' || c == '\t' || c == '\n' || c == '\r' ||
  c == Char.ofNat 11 || c == Char.ofNat 12

/-- Python user_query.replace with a quote pattern: every double-quote
character is replaced by a backslash followed by a double quote; all other
characters are kept. -/
def escapeQuotes : Str → Str
  | [] => []
  | c :: rest =>
    if c == '"' then '\\' :: '"' :: escapeQuotes rest
    else c :: escapeQuotes rest

/-- Remove leading whitespace. -/
def lstripCh (l : Str) : Str := l.dropWhile isSpaceCh

/-- Remove trailing whitespace. -/
def rstripCh (l : Str) : Str := ((l.reverse).dropWhile isSpaceCh).reverse

/-- Python str.strip with no arguments: drop whitespace at both ends. -/
def pyStrip (l : Str) : Str := rstripCh (lstripCh l)

/-- ASCII decimal digit test. -/
def isDigitCh (c : Char) : Bool := '0' ≤ c && c ≤ '9'

/-- Python str.isdigit (ASCII model): nonempty and all characters digits. -/
def pyIsDigit (l : Str) : Bool := !l.isEmpty && l.all isDigitCh

/-- A character matched by the regex class of lowercase letters, digits and
underscore under the IGNORECASE flag. -/
def isWordCh (c : Char) : Bool :=
  ('a' ≤ c && c ≤ 'z') || ('A' ≤ c && c ≤ 'Z') || isDigitCh c || c == '_'

/-- Full match of the issue-key regex (word characters, a hyphen, digits,
case-insensitive): the source's issue_key_pattern.fullmatch test.  The word
class cannot contain a hyphen, so the first hyphen of the string must be the
separator; everything after it must be a nonempty run of digits. -/
def issueKeyShape (l : Str) : Bool :=
  let a := l.takeWhile (fun c => !(c == '-'))
  match l.dropWhile (fun c => !(c == '-')) with
  | '-' :: b => !a.isEmpty && a.all isWordCh && !b.isEmpty && b.all isDigitCh
  | _ => false

/-- Python str.upper (ASCII model): uppercase every character. -/
def pyUpper (l : Str) : Str := l.map Char.toUpper

/-- Python truthiness of an optional string: None and the empty string are
falsy. -/
def optTruthy : Option Str → Bool
  | none => false
  | some s => !s.isEmpty

/-- Adding an element to the Python set search_components, modelled as a
duplicate-free list in insertion order. -/
def setAdd (l : List Str) (c : Str) : List Str :=
  if c ∈ l then l else l ++ [c]

/-- The general text-search component: text contains the cleaned term with a
trailing wildcard. -/
def textComponent (cleaned : Str) : Str :=
  ("text ~ \"").data ++ cleaned ++ ("*\"").data

/-- The exact issue-key component for a term that looks like a full issue
key, uppercased. -/
def keyComponent (cleaned : Str) : Str :=
  ("issuekey = \"").data ++ pyUpper cleaned ++ ("\"").data

/-- The synthesized issue-key component built from the uppercased project
key, a hyphen, and the purely numeric term. -/
def projKeyComponent (p cleaned : Str) : Str :=
  ("issuekey = \"").data ++ pyUpper p ++ ("-").data ++ cleaned ++ ("\"").data

/-- The set search_components in insertion order: always the text component;
the exact issue-key component when the term matches the issue-key regex; the
synthesized component when the project key is truthy and the term is purely
numeric. -/
def searchComponents (cleaned : Str) (pk : Option Str) : List Str :=
  let s1 := setAdd [] (textComponent cleaned)
  let s2 := if issueKeyShape cleaned then setAdd s1 (keyComponent cleaned) else s1
  match pk with
  | some p => if !p.isEmpty && pyIsDigit cleaned then setAdd s2 (projKeyComponent p cleaned) else s2
  | none => s2

/-- Python sep.join over a list of strings. -/
def joinSep (sep : Str) : List Str → Str
  | [] => []
  | [x] => x
  | x :: y :: xs => x ++ sep ++ joinSep sep (y :: xs)

/-- The exact project-equality clause on the uppercased project key. -/
def projectClause (p : Str) : Str :=
  ("project = \"").data ++ pyUpper p ++ ("\"").data

/-- The ordering directive appended to every constructed query. -/
def orderSuffix : Str := (" ORDER BY updated DESC").data

/-- A set-iteration order: an arbitrary but per-process-fixed permutation of
the insertion-ordered component list, modelling Python's hash-dependent set
iteration. -/
def IsSetOrder (σ : List Str → List Str) : Prop :=
  ∀ l, List.Perm (σ l) l

/-- The assembled JQL query: optional project clause, the OR-joined match
conditions wrapped in parentheses, clauses joined with AND, ordering
directive appended.  σ is the set-iteration order used by the join. -/
def buildJql (σ : List Str → List Str) (cleaned : Str) (pk : Option Str) : Str :=
  let comps := searchComponents cleaned pk
  let clauses :=
    (match pk with
     | some p => if !p.isEmpty then [projectClause p] else []
     | none => []) ++
    (if !comps.isEmpty
     then [("(").data ++ joinSep ((" OR ").data) (σ comps) ++ (")").data]
     else [])
  joinSep ((" AND ").data) clauses ++ orderSuffix

/-- The fields map of one upstream issue (only the summary is used). -/
structure IssueFields where
  summary : Str
deriving DecidableEq

/-- One issue as returned by the upstream search call. -/
structure Issue where
  key : Str
  fields : IssueFields
deriving DecidableEq

/-- The simplified issue shape returned to the caller. -/
structure SimpleIssue where
  key : Str
  summary : Str
deriving DecidableEq

/-- The parsed JSON error body of an upstream error response:
errorMessages is a list of strings when the key is present, errors is a
string-to-string object when present. -/
structure JiraErrorBody where
  errorMessages : Option (List Str)
  errors : Option (List (Str × Str))
deriving DecidableEq

/-- The outbound request sent to the upstream search endpoint. -/
structure UpstreamRequest where
  jql : Str
  fields : List Str
  maxResults : Nat
  timeout : Nat
deriving DecidableEq

/-- Outcome of the outbound call: a successful JSON body (whose issues key
may be absent), an HTTP 4xx/5xx error with status, reason text and an
optionally JSON-parseable body, or a connection/timeout failure raised
before any response. -/
inductive UpstreamResult where
  | success (issues : Option (List Issue))
  | httpError (status : Nat) (reason : Str) (body : Option JiraErrorBody)
  | connFailure (msg : Str)
deriving DecidableEq

/-- The handler's HTTP response: a JSON list of issues or a JSON error
envelope, each with a status code. -/
inductive HandlerResponse where
  | jsonList (issues : List SimpleIssue) (status : Nat)
  | jsonError (msg : Str) (status : Nat)
deriving DecidableEq

/-- Decimal representation of a status code. -/
def natStr (n : Nat) : Str := (Nat.repr n).data

/-- json.dumps of a flat string-to-string JSON object, used for the
field-errors branch of the error handler. -/
def dumpsErrors (kvs : List (Str × Str)) : Str :=
  ("\x7b").data ++
  joinSep ((", ").data)
    (kvs.map (fun kv =>
      ("\"").data ++ kv.1 ++ ("\": \"").data ++ kv.2 ++ ("\"").data)) ++
  ("\x7d").data

/-- The default error text built from the upstream status code and reason. -/
def fallbackDetails (status : Nat) (reason : Str) : Str :=
  ("Jira returned HTTP ").data ++ natStr status ++ (": ").data ++ reason

/-- The error text for an upstream HTTP error: the joined errorMessages when
present and nonempty, else the dumped errors object when present and
nonempty, else the fallback text; also the fallback when the body is not
parseable JSON. -/
def errorDetails (status : Nat) (reason : Str) (body : Option JiraErrorBody) : Str :=
  match body with
  | none => fallbackDetails status reason
  | some b =>
    match b.errorMessages with
    | some (m :: ms) => ("Jira Error: ").data ++ joinSep ((", ").data) (m :: ms)
    | _ =>
      match b.errors with
      | some (e :: es) => ("Jira Field Error: ").data ++ dumpsErrors (e :: es)
      | _ => fallbackDetails status reason

/-- The outbound request: the assembled JQL, the restricted field list,
maxResults 25 and the fixed timeout of 10 time units. -/
def buildRequest (σ : List Str → List Str) (cleaned : Str) (pk : Option Str) :
    UpstreamRequest :=
  { jql := buildJql σ cleaned pk
    fields := [("summary").data, ("key").data]
    maxResults := 25
    timeout := 10 }

/-- Projection of the upstream issues to the simplified shape, one output
element per input element. -/
def simplify (issues : List Issue) : List SimpleIssue :=
  issues.map fun i => { key := i.key, summary := i.fields.summary }

/-- The endpoint handler.  cfgOk is the conjunction of the three
configuration values being present; upstream is the behaviour of the single
outbound call; the returned number counts upstream calls made. -/
def handle (σ : List Str → List Str) (cfgOk : Bool)
    (upstream : UpstreamRequest → UpstreamResult)
    (q pk : Option Str) : HandlerResponse × Nat :=
  if !cfgOk then
    (HandlerResponse.jsonError (("Backend server is missing JIRA configuration.").data) 500, 0)
  else
    match q with
    | none => (HandlerResponse.jsonList [] 200, 0)
    | some uq =>
      if uq.isEmpty then (HandlerResponse.jsonList [] 200, 0)
      else
        let cleaned := pyStrip (escapeQuotes uq)
        if cleaned.isEmpty then (HandlerResponse.jsonList [] 200, 0)
        else
          match upstream (buildRequest σ cleaned pk) with
          | UpstreamResult.success issues =>
            (HandlerResponse.jsonList (simplify (issues.getD [])) 200, 1)
          | UpstreamResult.httpError st reason body =>
            (HandlerResponse.jsonError (errorDetails st reason body) st, 1)
          | UpstreamResult.connFailure msg =>
            (HandlerResponse.jsonError (("Failed to connect to Jira: ").data ++ msg) 502, 1)

/-- Boolean test that p is an initial segment of s. -/
def startsWithCh : Str → Str → Bool
  | [], _ => true
  | _ :: _, [] => false
  | p :: ps, c :: cs => p == c && startsWithCh ps cs

/-- Boolean test that p occurs as a contiguous substring of s. -/
def occursIn (p : Str) : Str → Bool
  | [] => p.isEmpty
  | c :: rest => startsWithCh p (c :: rest) || occursIn p rest

/-- Every double-quote in the list is immediately preceded by a backslash,
given that the character preceding the list is prev. -/
def quotesEscapedFrom (prev : Char) : Str → Bool
  | [] => true
  | c :: rest => (!(c == '"') || prev == '\\') && quotesEscapedFrom c rest

/-- Every double-quote in the list is immediately preceded by a backslash
(a leading double-quote counts as unescaped). -/
def quotesEscaped (l : Str) : Bool := quotesEscapedFrom ' ' l

theorem startsWithCh_iff (p s : Str) : startsWithCh p s = true ↔ ∃ t, s = p ++ t := by
  induction p generalizing s with
  | nil => simp [startsWithCh]
  | cons ph pt ih =>
    cases s with
    | nil => simp [startsWithCh]
    | cons c cs =>
      simp only [startsWithCh, Bool.and_eq_true, beq_iff_eq, ih, List.cons_append,
        List.cons.injEq]
      constructor
      · rintro ⟨h1, t, h2⟩; exact ⟨t, h1.symm, h2⟩
      · rintro ⟨t, h1, h2⟩; exact ⟨h1.symm, t, h2⟩

theorem occursIn_iff (p s : Str) : occursIn p s = true ↔ ∃ a b, s = a ++ p ++ b := by
  induction s with
  | nil =>
    cases p with
    | nil => simp [occursIn, List.isEmpty]
    | cons hd tl => simp [occursIn, List.isEmpty]
  | cons c rest ih =>
    simp only [occursIn, Bool.or_eq_true, startsWithCh_iff, ih]
    constructor
    · rintro (⟨t, ht⟩ | ⟨a, b, hab⟩)
      · exact ⟨[], t, by simpa using ht⟩
      · exact ⟨c :: a, b, by simp [hab]⟩
    · rintro ⟨a, b, hab⟩
      cases a with
      | nil => exact Or.inl ⟨b, by simpa using hab⟩
      | cons a0 as =>
        injection hab with h1 h2
        exact Or.inr ⟨as, b, by simpa using h2⟩

theorem occursIn_self (p : Str) : occursIn p p = true :=
  (occursIn_iff p p).mpr ⟨[], [], by simp⟩

theorem occursIn_append_left (a p s : Str) (h : occursIn p s = true) :
    occursIn p (a ++ s) = true := by
  obtain ⟨x, y, hxy⟩ := (occursIn_iff p s).mp h
  exact (occursIn_iff p (a ++ s)).mpr ⟨a ++ x, y, by simp [hxy]⟩

theorem occursIn_append_right (p s b : Str) (h : occursIn p s = true) :
    occursIn p (s ++ b) = true := by
  obtain ⟨x, y, hxy⟩ := (occursIn_iff p s).mp h
  exact (occursIn_iff p (s ++ b)).mpr ⟨x, y ++ b, by simp [hxy]⟩

theorem occursIn_trans (p q s : Str) (h1 : occursIn p q = true)
    (h2 : occursIn q s = true) : occursIn p s = true := by
  obtain ⟨x, y, hxy⟩ := (occursIn_iff p q).mp h1
  obtain ⟨u, v, huv⟩ := (occursIn_iff q s).mp h2
  exact (occursIn_iff p s).mpr ⟨u ++ x, y ++ v, by simp [huv, hxy]⟩

theorem joinSep_decomp (sep : Str) (l : List Str) (c : Str) (h : c ∈ l) :
    ∃ a b, joinSep sep l = a ++ c ++ b := by
  induction l with
  | nil => cases h
  | cons x xs ih =>
    rcases List.mem_cons.mp h with hcx | hmem
    · cases xs with
      | nil => exact ⟨[], [], by simp [joinSep, hcx]⟩
      | cons y ys => exact ⟨[], sep ++ joinSep sep (y :: ys), by simp [joinSep, hcx]⟩
    · have hxs : xs ≠ [] := List.ne_nil_of_mem hmem
      obtain ⟨a, b, hab⟩ := ih hmem
      cases xs with
      | nil => cases hxs rfl
      | cons y ys =>
        exact ⟨x ++ sep ++ a, b, by simp [joinSep, hab]⟩

theorem occursIn_joinSep_of_mem (sep : Str) (l : List Str) (c : Str) (h : c ∈ l) :
    occursIn c (joinSep sep l) = true := by
  obtain ⟨a, b, hab⟩ := joinSep_decomp sep l c h
  exact (occursIn_iff c (joinSep sep l)).mpr ⟨a, b, hab⟩

theorem quotesEscapedFrom_escapeQuotes (s : Str) :
    ∀ prev, quotesEscapedFrom prev (escapeQuotes s) = true := by
  induction s with
  | nil => intro prev; rfl
  | cons c rest ih =>
    intro prev
    by_cases hc : c = '"'
    · subst hc
      simp [escapeQuotes, quotesEscapedFrom, ih]
    · simp [escapeQuotes, quotesEscapedFrom, hc, ih]

theorem quotesEscapedFrom_indep (l : Str) (p₁ p₂ : Char)
    (h₁ : p₁ ≠ '\\') (h₂ : p₂ ≠ '\\') :
    quotesEscapedFrom p₁ l = quotesEscapedFrom p₂ l := by
  cases l with
  | nil => rfl
  | cons c rest =>
    simp [quotesEscapedFrom, beq_eq_false_iff_ne.mpr h₁, beq_eq_false_iff_ne.mpr h₂]

theorem quotesEscapedFrom_append_left (a b : Str) :
    ∀ p, quotesEscapedFrom p (a ++ b) = true → quotesEscapedFrom p a = true := by
  induction a with
  | nil => intro p _; rfl
  | cons c as ih =>
    intro p h
    simp only [List.cons_append, quotesEscapedFrom, Bool.and_eq_true] at h ⊢
    exact ⟨h.1, ih c h.2⟩

theorem isSpaceCh_ne_backslash (c : Char) (h : isSpaceCh c = true) : c ≠ '\\' := by
  intro heq; subst heq; exact absurd h (by decide)

theorem isSpaceCh_ne_quote (c : Char) (h : isSpaceCh c = true) : c ≠ '"' := by
  intro heq; subst heq; exact absurd h (by decide)

theorem quotesEscaped_dropWhile (l : Str) :
    ∀ p, p ≠ '\\' → quotesEscapedFrom p l = true →
      quotesEscaped (l.dropWhile isSpaceCh) = true := by
  induction l with
  | nil => intro p _ _; rfl
  | cons c rest ih =>
    intro p hp h
    simp only [quotesEscapedFrom, Bool.and_eq_true] at h
    by_cases hs : isSpaceCh c = true
    · rw [List.dropWhile_cons_of_pos hs]
      exact ih c (isSpaceCh_ne_backslash c hs) h.2
    · rw [List.dropWhile_cons_of_neg hs]
      unfold quotesEscaped
      rw [quotesEscapedFrom_indep (c :: rest) ' ' p (by decide) hp]
      simp only [quotesEscapedFrom, Bool.and_eq_true]
      exact h

theorem rstripCh_decomp (l : Str) :
    l = rstripCh l ++ (l.reverse.takeWhile isSpaceCh).reverse := by
  conv_lhs => rw [← List.reverse_reverse l,
    ← List.takeWhile_append_dropWhile (p := isSpaceCh) (l := l.reverse)]
  rw [List.reverse_append]
  rfl

theorem quotesEscaped_rstripCh (l : Str) (h : quotesEscaped l = true) :
    quotesEscaped (rstripCh l) = true := by
  unfold quotesEscaped at h ⊢
  have hd := rstripCh_decomp l
  rw [hd] at h
  exact quotesEscapedFrom_append_left _ _ ' ' h

/-- The cleaned search term (quote-replacement followed by strip) has every
double-quote immediately preceded by a backslash. -/
theorem quotesEscaped_cleaned (s : Str) :
    quotesEscaped (pyStrip (escapeQuotes s)) = true := by
  have h1 := quotesEscapedFrom_escapeQuotes s ' '
  have h2 : quotesEscaped (lstripCh (escapeQuotes s)) = true :=
    quotesEscaped_dropWhile (escapeQuotes s) ' ' (by decide) h1
  exact quotesEscaped_rstripCh _ h2

theorem rstripCh_eq_nil_all_space (l : Str) (h : rstripCh l = []) :
    ∀ c ∈ l, isSpaceCh c = true := by
  unfold rstripCh at h
  rw [List.reverse_eq_nil_iff] at h
  intro c hc
  exact List.dropWhile_eq_nil_iff.mp h c (List.mem_reverse.mpr hc)

theorem pyStrip_eq_nil_all_space (s : Str) (h : pyStrip s = []) :
    ∀ c ∈ s, isSpaceCh c = true := by
  unfold pyStrip at h
  have hl : ∀ c ∈ lstripCh s, isSpaceCh c = true := rstripCh_eq_nil_all_space _ h
  intro c hc
  rw [← List.takeWhile_append_dropWhile (p := isSpaceCh) (l := s)] at hc
  rcases List.mem_append.mp hc with htk | hdr
  · exact List.mem_takeWhile_imp htk
  · exact hl c hdr

theorem escapeQuotes_of_no_quote (s : Str) (h : ∀ c ∈ s, c ≠ '"') :
    escapeQuotes s = s := by
  induction s with
  | nil => rfl
  | cons c rest ih =>
    have hc : ¬(c == '"') = true := by
      simp only [beq_iff_eq]
      exact h c (List.mem_cons_self c rest)
    simp only [escapeQuotes, if_neg hc]
    rw [ih fun x hx => h x (List.mem_cons_of_mem c hx)]

theorem pyStrip_escapeQuotes_of_blank (s : Str) (h : pyStrip s = []) :
    pyStrip (escapeQuotes s) = [] := by
  rw [escapeQuotes_of_no_quote s fun c hc =>
    isSpaceCh_ne_quote c (pyStrip_eq_nil_all_space s h c hc)]
  exact h

theorem setAdd_mem_self (l : List Str) (c : Str) : c ∈ setAdd l c := by
  unfold setAdd
  split
  · assumption
  · exact List.mem_append_right l (List.mem_singleton.mpr rfl)

theorem setAdd_mem_mono (l : List Str) (c x : Str) (h : x ∈ l) : x ∈ setAdd l c := by
  unfold setAdd
  split
  · exact h
  · exact List.mem_append_left _ h

theorem mem_searchComponents_text (cleaned : Str) (pk : Option Str) :
    textComponent cleaned ∈ searchComponents cleaned pk := by
  have h1 : textComponent cleaned ∈ setAdd [] (textComponent cleaned) :=
    setAdd_mem_self _ _
  have h2 : textComponent cleaned ∈
      (if issueKeyShape cleaned then
        setAdd (setAdd [] (textComponent cleaned)) (keyComponent cleaned)
       else setAdd [] (textComponent cleaned)) := by
    by_cases hk : issueKeyShape cleaned = true
    · rw [if_pos hk]; exact setAdd_mem_mono _ _ _ h1
    · rw [if_neg hk]; exact h1
  unfold searchComponents
  cases pk with
  | none => exact h2
  | some p =>
    dsimp only
    by_cases hpd : (!p.isEmpty && pyIsDigit cleaned) = true
    · rw [if_pos hpd]; exact setAdd_mem_mono _ _ _ h2
    · rw [if_neg hpd]; exact h2

theorem mem_searchComponents_key (cleaned : Str) (pk : Option Str)
    (hk : issueKeyShape cleaned = true) :
    keyComponent cleaned ∈ searchComponents cleaned pk := by
  have h2 : keyComponent cleaned ∈
      (if issueKeyShape cleaned then
        setAdd (setAdd [] (textComponent cleaned)) (keyComponent cleaned)
       else setAdd [] (textComponent cleaned)) := by
    rw [if_pos hk]
    exact setAdd_mem_self _ _
  unfold searchComponents
  cases pk with
  | none => exact h2
  | some p =>
    dsimp only
    by_cases hpd : (!p.isEmpty && pyIsDigit cleaned) = true
    · rw [if_pos hpd]; exact setAdd_mem_mono _ _ _ h2
    · rw [if_neg hpd]; exact h2

theorem mem_searchComponents_projKey (cleaned p : Str)
    (hp : p ≠ []) (hd : pyIsDigit cleaned = true) :
    projKeyComponent p cleaned ∈ searchComponents cleaned (some p) := by
  have hpe : p.isEmpty = false := by
    cases p with
    | nil => cases hp rfl
    | cons _ _ => rfl
  unfold searchComponents
  dsimp only
  rw [if_pos (by simp [hpe, hd])]
  exact setAdd_mem_self _ _

theorem searchComponents_ne_nil (cleaned : Str) (pk : Option Str) :
    searchComponents cleaned pk ≠ [] :=
  List.ne_nil_of_mem (mem_searchComponents_text cleaned pk)

theorem occursIn_clauses_aux (c cl : Str) (clauses : List Str)
    (hin : occursIn c cl = true) (hm : cl ∈ clauses) :
    occursIn c (joinSep ((" AND ").data) clauses ++ orderSuffix) = true :=
  occursIn_append_right _ _ _ (occursIn_trans _ _ _ hin (occursIn_joinSep_of_mem _ _ _ hm))

theorem not_isEmpty_searchComponents (cleaned : Str) (pk : Option Str) :
    (!(searchComponents cleaned pk).isEmpty) = true := by
  have h := searchComponents_ne_nil cleaned pk
  cases hsc : searchComponents cleaned pk with
  | nil => exact absurd hsc h
  | cons _ _ => rfl

theorem occursIn_buildJql_of_mem (σ : List Str → List Str) (hσ : IsSetOrder σ)
    (cleaned : Str) (pk : Option Str) (c : Str)
    (hc : c ∈ searchComponents cleaned pk) :
    occursIn c (buildJql σ cleaned pk) = true := by
  have hmem : c ∈ σ (searchComponents cleaned pk) :=
    ((hσ (searchComponents cleaned pk)).mem_iff).mpr hc
  have hclause : occursIn c
      (("(").data ++ joinSep ((" OR ").data) (σ (searchComponents cleaned pk)) ++ (")").data) = true :=
    occursIn_append_right _ _ _
      (occursIn_append_left _ _ _ (occursIn_joinSep_of_mem _ _ _ hmem))
  unfold buildJql
  cases pk with
  | none =>
    dsimp only
    rw [if_pos (not_isEmpty_searchComponents cleaned none)]
    exact occursIn_clauses_aux c _ _ hclause (by simp)
  | some p =>
    dsimp only
    rw [if_pos (not_isEmpty_searchComponents cleaned (some p))]
    by_cases hpe : (!p.isEmpty) = true
    · rw [if_pos hpe]
      exact occursIn_clauses_aux c _ _ hclause (by simp)
    · rw [if_neg hpe]
      exact occursIn_clauses_aux c _ _ hclause (by simp)

theorem occursIn_buildJql_projectClause (σ : List Str → List Str)
    (cleaned p : Str) (hp : p ≠ []) :
    occursIn (projectClause p) (buildJql σ cleaned (some p)) = true := by
  have hpe : (!p.isEmpty) = true := by
    cases p with
    | nil => cases hp rfl
    | cons _ _ => rfl
  unfold buildJql
  dsimp only
  rw [if_pos hpe, if_pos (not_isEmpty_searchComponents cleaned (some p))]
  exact occursIn_clauses_aux _ _ _ (occursIn_self _) (by simp)

theorem handle_upstream_eq (σ : List Str → List Str)
    (upstream : UpstreamRequest → UpstreamResult) (uq : Str) (pk : Option Str)
    (hq : pyStrip (escapeQuotes uq) ≠ []) :
    handle σ true upstream (some uq) pk =
      match upstream (buildRequest σ (pyStrip (escapeQuotes uq)) pk) with
      | UpstreamResult.success issues =>
        (HandlerResponse.jsonList (simplify (issues.getD [])) 200, 1)
      | UpstreamResult.httpError st reason body =>
        (HandlerResponse.jsonError (errorDetails st reason body) st, 1)
      | UpstreamResult.connFailure msg =>
        (HandlerResponse.jsonError (("Failed to connect to Jira: ").data ++ msg) 502, 1) := by
  have hne : uq ≠ [] := by
    intro h
    exact hq (by rw [h]; rfl)
  have hie : uq.isEmpty = false := by
    cases uq with
    | nil => exact absurd rfl hne
    | cons _ _ => rfl
  have hce : (pyStrip (escapeQuotes uq)).isEmpty = false := by
    cases h : pyStrip (escapeQuotes uq) with
    | nil => exact absurd h hq
    | cons _ _ => rfl
  simp only [handle, Bool.not_true, Bool.false_eq_true, if_false, hie, hce]

/-- C1: for every raw query, every double-quote in the cleaned term (the
quote-replaced, stripped query that is embedded in the constructed JQL) is
immediately preceded by a backslash, and the text-contains component built
from that cleaned term occurs verbatim in the constructed JQL string, so no
raw unescaped quote from the query reaches the upstream call. -/
theorem c1_quote_escaping (σ : List Str → List Str) (hσ : IsSetOrder σ)
    (uq : Str) (pk : Option Str) :
    quotesEscaped (pyStrip (escapeQuotes uq)) = true ∧
    occursIn (textComponent (pyStrip (escapeQuotes uq)))
      (buildJql σ (pyStrip (escapeQuotes uq)) pk) = true :=
  ⟨quotesEscaped_cleaned uq,
   occursIn_buildJql_of_mem σ hσ _ pk _ (mem_searchComponents_text _ _)⟩

/-- Witness for C1 at a concrete quote-containing query. -/
theorem c1_quote_escaping_witness :
    quotesEscaped (pyStrip (escapeQuotes (("he said \"hi\"").data))) = true ∧
    occursIn (textComponent (pyStrip (escapeQuotes (("he said \"hi\"").data))))
      (buildJql id (pyStrip (escapeQuotes (("he said \"hi\"").data))) none) = true :=
  c1_quote_escaping id (fun l => List.Perm.refl l) (("he said \"hi\"").data) none

/-- C2: when the query parameter is absent, empty, or whitespace-only
(empty after trimming), the configured handler responds 200 with an empty
list and performs zero upstream calls. -/
theorem c2_blank_query (σ : List Str → List Str)
    (upstream : UpstreamRequest → UpstreamResult) (q pk : Option Str)
    (h : q = none ∨ ∃ s, q = some s ∧ pyStrip s = []) :
    handle σ true upstream q pk = (HandlerResponse.jsonList [] 200, 0) := by
  rcases h with h | ⟨s, hq, hs⟩
  · subst h; rfl
  · subst hq
    cases s with
    | nil => rfl
    | cons c cs =>
      have hce : (pyStrip (escapeQuotes (c :: cs))).isEmpty = true := by
        rw [pyStrip_escapeQuotes_of_blank _ hs]; rfl
      simp only [handle, Bool.not_true, Bool.false_eq_true, if_false,
        List.isEmpty_cons, hce, if_true]

/-- Witness for C2 at a concrete whitespace-only query. -/
theorem c2_blank_query_witness :
    handle id true (fun _ => UpstreamResult.success none)
      (some (("  ").data)) none = (HandlerResponse.jsonList [] 200, 0) :=
  c2_blank_query id (fun _ => UpstreamResult.success none) (some (("  ").data)) none
    (Or.inr ⟨("  ").data, rfl, by decide⟩)

/-- C3: when a nonempty project key is supplied and the cleaned term is
purely numeric, the constructed JQL contains the exact issue-key condition
for the uppercased project key, a hyphen, and the term. -/
theorem c3_numeric_project_synthesis (σ : List Str → List Str) (hσ : IsSetOrder σ)
    (cleaned p : Str) (hp : p ≠ []) (hd : pyIsDigit cleaned = true) :
    occursIn (projKeyComponent p cleaned) (buildJql σ cleaned (some p)) = true :=
  occursIn_buildJql_of_mem σ hσ _ _ _ (mem_searchComponents_projKey cleaned p hp hd)

/-- Witness for C3: for term 17 and project SCRUM the constructed query
contains the exact condition on SCRUM-17. -/
theorem c3_numeric_project_synthesis_witness :
    occursIn (("issuekey = \"SCRUM-17\"").data)
      (buildJql id (("17").data) (some (("SCRUM").data))) = true :=
  c3_numeric_project_synthesis id (fun l => List.Perm.refl l)
    (("17").data) (("SCRUM").data) (by decide) (by decide)

/-- C4: when the cleaned term matches the issue-key shape, the constructed
JQL contains both the text-contains condition for the term and the exact
issue-key condition for the uppercased term. -/
theorem c4_issue_key_conditions (σ : List Str → List Str) (hσ : IsSetOrder σ)
    (cleaned : Str) (pk : Option Str) (hk : issueKeyShape cleaned = true) :
    occursIn (textComponent cleaned) (buildJql σ cleaned pk) = true ∧
    occursIn (keyComponent cleaned) (buildJql σ cleaned pk) = true :=
  ⟨occursIn_buildJql_of_mem σ hσ _ _ _ (mem_searchComponents_text _ _),
   occursIn_buildJql_of_mem σ hσ _ _ _ (mem_searchComponents_key _ _ hk)⟩

/-- Witness for C4 at the concrete term SCRUM-42 with no project key. -/
theorem c4_issue_key_conditions_witness :
    occursIn (textComponent (("SCRUM-42").data))
      (buildJql id (("SCRUM-42").data) none) = true ∧
    occursIn (keyComponent (("SCRUM-42").data))
      (buildJql id (("SCRUM-42").data) none) = true :=
  c4_issue_key_conditions id (fun l => List.Perm.refl l) (("SCRUM-42").data) none
    (by decide)

/-- C5: for a nonempty cleaned term the constructed JQL is exactly the
optional project-equality clause joined with AND, followed by the OR-join of
the match conditions wrapped in parentheses, suffixed with the ordering
directive. -/
theorem c5_assembly (σ : List Str → List Str) (cleaned : Str) (pk : Option Str)
    (_hc : cleaned ≠ []) :
    buildJql σ cleaned pk =
      (match pk with
       | some p => if p ≠ [] then projectClause p ++ ((" AND ").data) else []
       | none => []) ++
      (("(").data ++ joinSep ((" OR ").data) (σ (searchComponents cleaned pk)) ++ (")").data) ++
      orderSuffix := by
  unfold buildJql
  cases pk with
  | none =>
    dsimp only
    rw [if_pos (not_isEmpty_searchComponents cleaned none)]
    simp [joinSep]
  | some p =>
    dsimp only
    rw [if_pos (not_isEmpty_searchComponents cleaned (some p))]
    by_cases hp : p = []
    · subst hp
      rw [if_neg (by decide : ¬(!(List.isEmpty ([] : Str))) = true)]
      rw [if_neg (by simp : ¬(([] : Str) ≠ []))]
      simp [joinSep]
    · have hpe : (!p.isEmpty) = true := by
        cases p with
        | nil => exact absurd rfl hp
        | cons _ _ => rfl
      rw [if_pos hpe, if_pos hp]
      simp [joinSep, List.append_assoc]

/-- Witness for C5 at a concrete term and project key. -/
theorem c5_assembly_witness :
    buildJql id (("x").data) (some (("p").data)) =
      (match (some (("p").data) : Option Str) with
       | some p => if p ≠ [] then projectClause p ++ ((" AND ").data) else []
       | none => []) ++
      (("(").data ++
        joinSep ((" OR ").data) (id (searchComponents (("x").data) (some (("p").data)))) ++
        (")").data) ++
      orderSuffix :=
  c5_assembly id (("x").data) (some (("p").data)) (by decide)

/-- C6: when the upstream responds with an HTTP error, the handler responds
with exactly the upstream status code; the error message is the joined
errorMessages when the parsed body carries a nonempty errorMessages list,
and falls back to the raw status text when the body is not parseable JSON or
carries neither a nonempty errorMessages list nor a nonempty errors map. -/
theorem c6_upstream_http_error (σ : List Str → List Str)
    (upstream : UpstreamRequest → UpstreamResult) (uq : Str) (pk : Option Str)
    (st : Nat) (reason : Str) (body : Option JiraErrorBody)
    (hq : pyStrip (escapeQuotes uq) ≠ [])
    (hu : upstream (buildRequest σ (pyStrip (escapeQuotes uq)) pk) =
      UpstreamResult.httpError st reason body) :
    handle σ true upstream (some uq) pk =
      (HandlerResponse.jsonError (errorDetails st reason body) st, 1) ∧
    (∀ b m ms, body = some b → b.errorMessages = some (m :: ms) →
      errorDetails st reason body =
        ("Jira Error: ").data ++ joinSep ((", ").data) (m :: ms) ∧
      occursIn (joinSep ((", ").data) (m :: ms)) (errorDetails st reason body) = true) ∧
    (body = none → errorDetails st reason body = fallbackDetails st reason) ∧
    (∀ b, body = some b →
      (b.errorMessages = none ∨ b.errorMessages = some []) →
      (b.errors = none ∨ b.errors = some []) →
      errorDetails st reason body = fallbackDetails st reason) := by
  refine ⟨?_, ?_, ?_, ?_⟩
  · rw [handle_upstream_eq σ upstream uq pk hq, hu]
  · rintro b m ms rfl hmsg
    have hd : errorDetails st reason (some b) =
        ("Jira Error: ").data ++ joinSep ((", ").data) (m :: ms) := by
      simp [errorDetails, hmsg]
    exact ⟨hd, by rw [hd]; exact occursIn_append_left _ _ _ (occursIn_self _)⟩
  · rintro rfl; rfl
  · rintro b rfl hm he
    rcases hm with hm | hm <;> rcases he with he | he <;> simp [errorDetails, hm, he]

/-- Witness for C6: a concrete upstream 400 whose body carries the single
error message yields a 400 response whose message contains it. -/
theorem c6_upstream_http_error_witness :
    handle id true
      (fun _ => UpstreamResult.httpError 400 (("Bad Request").data)
        (some { errorMessages := some [("field X invalid").data], errors := none }))
      (some (("x").data)) none =
      (HandlerResponse.jsonError ((("Jira Error: ").data ++ ("field X invalid").data)) 400, 1) ∧
    occursIn (("field X invalid").data)
      (errorDetails 400 (("Bad Request").data)
        (some { errorMessages := some [("field X invalid").data], errors := none })) = true := by
  have h := c6_upstream_http_error id
    (fun _ => UpstreamResult.httpError 400 (("Bad Request").data)
      (some { errorMessages := some [("field X invalid").data], errors := none }))
    (("x").data) none 400 (("Bad Request").data)
    (some { errorMessages := some [("field X invalid").data], errors := none })
    (by decide) rfl
  refine ⟨h.1.trans (by decide), ?_⟩
  have h2 := (h.2.1 _ (("field X invalid").data) [] rfl rfl).2
  exact h2

/-- C7: when the outbound call fails before any response (connection error
or timeout), the handler responds 502 with a message naming the
connectivity failure, and the outbound request carries the fixed timeout
bound of 10 time units. -/
theorem c7_connectivity_failure (σ : List Str → List Str)
    (upstream : UpstreamRequest → UpstreamResult) (uq : Str) (pk : Option Str)
    (msg : Str)
    (hq : pyStrip (escapeQuotes uq) ≠ [])
    (hu : upstream (buildRequest σ (pyStrip (escapeQuotes uq)) pk) =
      UpstreamResult.connFailure msg) :
    handle σ true upstream (some uq) pk =
      (HandlerResponse.jsonError ((("Failed to connect to Jira: ").data ++ msg)) 502, 1) ∧
    (buildRequest σ (pyStrip (escapeQuotes uq)) pk).timeout = 10 :=
  ⟨by rw [handle_upstream_eq σ upstream uq pk hq, hu], rfl⟩

/-- Witness for C7 at a concrete timed-out upstream call. -/
theorem c7_connectivity_failure_witness :
    handle id true (fun _ => UpstreamResult.connFailure (("timed out").data))
      (some (("x").data)) none =
      (HandlerResponse.jsonError
        ((("Failed to connect to Jira: ").data ++ ("timed out").data)) 502, 1) ∧
    (buildRequest id (pyStrip (escapeQuotes (("x").data))) none).timeout = 10 :=
  c7_connectivity_failure id (fun _ => UpstreamResult.connFailure (("timed out").data))
    (("x").data) none (("timed out").data) (by decide) rfl

/-- C8: every outbound request carries maxResults 25 and the field list
restricted to summary and key; on success the handler returns one simplified
issue per upstream issue with no truncation, so when the upstream honours
the requested cap the handler returns at most 25 issues. -/
theorem c8_result_cap (σ : List Str → List Str)
    (upstream : UpstreamRequest → UpstreamResult) (uq : Str) (pk : Option Str)
    (hq : pyStrip (escapeQuotes uq) ≠ []) :
    (buildRequest σ (pyStrip (escapeQuotes uq)) pk).maxResults = 25 ∧
    (buildRequest σ (pyStrip (escapeQuotes uq)) pk).fields =
      [("summary").data, ("key").data] ∧
    ∀ issues, upstream (buildRequest σ (pyStrip (escapeQuotes uq)) pk) =
        UpstreamResult.success issues →
      handle σ true upstream (some uq) pk =
        (HandlerResponse.jsonList (simplify (issues.getD [])) 200, 1) ∧
      (simplify (issues.getD [])).length = (issues.getD []).length ∧
      ((issues.getD []).length ≤ (buildRequest σ (pyStrip (escapeQuotes uq)) pk).maxResults →
        (simplify (issues.getD [])).length ≤ 25) := by
  refine ⟨rfl, rfl, fun issues hu => ⟨?_, ?_, ?_⟩⟩
  · rw [handle_upstream_eq σ upstream uq pk hq, hu]
  · simp [simplify]
  · intro hle
    simpa [simplify] using hle

/-- Witness for C8 at a concrete successful upstream call with one issue. -/
theorem c8_result_cap_witness :
    (buildRequest id (pyStrip (escapeQuotes (("x").data))) none).maxResults = 25 ∧
    (buildRequest id (pyStrip (escapeQuotes (("x").data))) none).fields =
      [("summary").data, ("key").data] ∧
    handle id true
      (fun _ => UpstreamResult.success
        (some [{ key := ("K-1").data, fields := { summary := ("s").data } }]))
      (some (("x").data)) none =
      (HandlerResponse.jsonList [{ key := ("K-1").data, summary := ("s").data }] 200, 1) := by
  have h := c8_result_cap id
    (fun _ => UpstreamResult.success
      (some [{ key := ("K-1").data, fields := { summary := ("s").data } }]))
    (("x").data) none (by decide)
  exact ⟨h.1, h.2.1, ((h.2.2 _ rfl).1).trans (by decide)⟩

/-- C9: the collection of OR-joined match conditions is a deterministic
function of the cleaned term and the project key: any two set-iteration
orders (for example those of two different server processes) yield
permutations of one another, and a fixed iteration order (one running
process) always constructs the identical JQL string for the same inputs. -/
theorem c9_deterministic (σ₁ σ₂ : List Str → List Str)
    (h₁ : IsSetOrder σ₁) (h₂ : IsSetOrder σ₂) (cleaned : Str) (pk : Option Str) :
    List.Perm (σ₁ (searchComponents cleaned pk)) (σ₂ (searchComponents cleaned pk)) ∧
    (σ₁ = σ₂ → buildJql σ₁ cleaned pk = buildJql σ₂ cleaned pk) :=
  ⟨(h₁ _).trans (h₂ _).symm, fun h => by rw [h]⟩

/-- Witness for C9 at a concrete input and the identity iteration order. -/
theorem c9_deterministic_witness :
    List.Perm (id (searchComponents (("x").data) none))
      (id (searchComponents (("x").data) none)) ∧
    (id = (id : List Str → List Str) →
      buildJql id (("x").data) none = buildJql id (("x").data) none) :=
  c9_deterministic id id (fun l => List.Perm.refl l) (fun l => List.Perm.refl l)
    (("x").data) none

/-- C10: the uppercased project key is embedded verbatim (no quote
replacement) inside the quoted project-equality clause and, for a numeric
term, inside the synthesized issue-key clause; uppercasing preserves a
double-quote, so a project key containing one puts an unescaped quote into
the constructed JQL. -/
theorem c10_project_key_verbatim (σ : List Str → List Str) (hσ : IsSetOrder σ)
    (cleaned p : Str) (hp : p ≠ []) :
    occursIn ((("project = \"").data ++ pyUpper p ++ ("\"").data))
      (buildJql σ cleaned (some p)) = true ∧
    ('"' ∈ p → '"' ∈ pyUpper p) ∧
    (pyIsDigit cleaned = true →
      occursIn ((("issuekey = \"").data ++ pyUpper p ++ ("-").data ++ cleaned ++ ("\"").data))
        (buildJql σ cleaned (some p)) = true) := by
  refine ⟨occursIn_buildJql_projectClause σ cleaned p hp, ?_, ?_⟩
  · intro hquote
    exact List.mem_map.mpr ⟨'"', hquote, by decide⟩
  · intro hd
    exact occursIn_buildJql_of_mem σ hσ _ _ _ (mem_searchComponents_projKey cleaned p hp hd)

/-- Witness for C10 at a project key containing a double-quote. -/
theorem c10_project_key_verbatim_witness :
    occursIn ((("project = \"").data ++ pyUpper ('A' :: '"' :: 'B' :: []) ++ ("\"").data))
      (buildJql id (("x").data) (some ('A' :: '"' :: 'B' :: []))) = true ∧
    '"' ∈ pyUpper ('A' :: '"' :: 'B' :: []) := by
  have h := c10_project_key_verbatim id (fun l => List.Perm.refl l)
    (("x").data) ('A' :: '"' :: 'B' :: []) (by decide)
  exact ⟨h.1, h.2.1 (by decide)⟩

end JiraProxy
